import Mathlib

/-!
Verification model of the claude-code-go SDK (upamune/claude-code-go).

The development shallowly embeds the Go sources:
  * `types.go`    — options, message variants, usage records;
  * `message.go`  — `ParseMessage`, the line decoder / message router;
  * `errors.go`   — the four structured error kinds;
  * `builder.go`  — `ArgumentBuilder.BuildArgs` / `ArgumentBuilder.Validate`;
  * `executor.go` — `DefaultCommandExecutor.Execute` / `ExecuteStream` and
                    `streamReader.Close`;
  * `claude.go`   — `clientImpl.Query` (one-shot query);
  * `stream.go`   — `QueryStream` and its background reader goroutine.

Modelling conventions:
  * JSON documents are represented by an explicit syntax tree `Json`; a raw
    byte sequence (a line, or the whole one-shot output) is a `RawLine`
    carrying the raw text together with the result of JSON parsing
    (`none` = malformed input, mirroring an `encoding/json` syntax error).
  * JSON numbers are modelled as rationals; `encoding/json` behaviour of
    unmarshalling into Go `int`/`int64` fields (failure on a fractional
    value) is modelled via the denominator.
  * Go maps are modelled as association lists; `encoding/json` marshals map
    keys in sorted order, which the model reproduces.
  * Subprocesses are modelled by records describing the observable behaviour
    of one spawned process (exit code, captured output, stderr); the client
    functions additionally return the list of processes they spawned, so
    "no process is spawned" is expressible.
  * The reader goroutine of `stream.go` is modelled as a total function over
    the list of lines the subprocess emits, with the governing context's
    cancellation modelled as the index of the first delivery attempt at
    which the context is already done.
-/

namespace Claude

/-- JSON syntax tree (model of an `encoding/json` document). -/
inductive Json where
  | null : Json
  | bool (b : Bool) : Json
  | num (q : Rat) : Json
  | str (s : String) : Json
  | arr (elems : List Json) : Json
  | obj (fields : List (String × Json)) : Json
deriving Repr

/-- Field lookup in a JSON object.  `encoding/json` processes duplicated
keys in order, the last occurrence winning, so the lookup returns the last
binding of the key. -/
def jsonLookup (key : String) : List (String × Json) → Option Json
  | [] => none
  | (k, v) :: rest =>
    match jsonLookup key rest with
    | some w => some w
    | none => if k = key then some v else none

/-- A raw input (one line of stream output, or a whole one-shot output):
the exact text together with the outcome of JSON parsing on it
(`none` models a `json.Unmarshal` syntax error). -/
structure RawLine where
  raw : String
  json : Option Json
deriving Repr

/-! ### Decoding primitives (model of `encoding/json` unmarshalling) -/

/-- Unmarshal an object field into a Go `string`: absent or `null` leaves
the zero value, a JSON string is taken verbatim, anything else fails. -/
def decodeStrField (fields : List (String × Json)) (key : String) : Except String String :=
  match jsonLookup key fields with
  | none => .ok ""
  | some .null => .ok ""
  | some (.str s) => .ok s
  | some _ => .error ("cannot unmarshal into string field " ++ key)

/-- Unmarshal an object field into a Go `int`/`int64`: absent or `null`
leaves zero, an integral JSON number is taken, anything else fails. -/
def decodeIntField (fields : List (String × Json)) (key : String) : Except String Int :=
  match jsonLookup key fields with
  | none => .ok 0
  | some .null => .ok 0
  | some (.num q) => if q.den = 1 then .ok q.num else .error ("cannot unmarshal fractional number into int field " ++ key)
  | some _ => .error ("cannot unmarshal into int field " ++ key)

/-- Unmarshal an object field into a Go `float64`. -/
def decodeNumField (fields : List (String × Json)) (key : String) : Except String Rat :=
  match jsonLookup key fields with
  | none => .ok 0
  | some .null => .ok 0
  | some (.num q) => .ok q
  | some _ => .error ("cannot unmarshal into float field " ++ key)

/-- Unmarshal an object field into a Go `bool`. -/
def decodeBoolField (fields : List (String × Json)) (key : String) : Except String Bool :=
  match jsonLookup key fields with
  | none => .ok false
  | some .null => .ok false
  | some (.bool b) => .ok b
  | some _ => .error ("cannot unmarshal into bool field " ++ key)

/-- Unmarshal an object field into a Go `*string`: absent or `null` gives
`nil`, a JSON string gives a pointer to it, anything else fails. -/
def decodeOptStrField (fields : List (String × Json)) (key : String) : Except String (Option String) :=
  match jsonLookup key fields with
  | none => .ok none
  | some .null => .ok none
  | some (.str s) => .ok (some s)
  | some _ => .error ("cannot unmarshal into string pointer field " ++ key)

/-- Unmarshal an object field into a Go `json.RawMessage`: the raw bytes of
the field are retained verbatim (any JSON value is accepted); an absent
field leaves the `nil` zero value. -/
def decodeRawField (fields : List (String × Json)) (key : String) : Except String (Option Json) :=
  match jsonLookup key fields with
  | none => .ok none
  | some j => .ok (some j)

/-- Unmarshal a JSON array of strings (elementwise) into a Go `[]string`. -/
def decodeStrElems : List Json → Except String (List String)
  | [] => .ok []
  | .str s :: rest => (decodeStrElems rest).map (s :: ·)
  | _ :: _ => .error "cannot unmarshal array element into string"

/-- Unmarshal an object field into a Go `[]string`: absent or `null` leaves
the `nil` zero value, an array of strings is decoded elementwise. -/
def decodeStrListField (fields : List (String × Json)) (key : String) : Except String (List String) :=
  match jsonLookup key fields with
  | none => .ok []
  | some .null => .ok []
  | some (.arr xs) => decodeStrElems xs
  | some _ => .error ("cannot unmarshal into string slice field " ++ key)

/-! ### Message data model (from `types.go`) -/

/-- `Usage` — token accounting (from `types.go`). -/
structure Usage where
  CacheCreationInputTokens : Int := 0
  CacheReadInputTokens : Int := 0
  InputTokens : Int := 0
  OutputTokens : Int := 0
deriving Repr

/-- `MCPServerStatus` (from `types.go`). -/
structure MCPServerStatus where
  Name : String := ""
  Status : String := ""
  Error : String := ""
deriving Repr

/-- `UserMessage` (from `types.go`).  The `Message` field is a
`json.RawMessage`, kept as the raw JSON value; `none` is the `nil` zero
value of an absent field. -/
structure UserMessage where
  «Type» : String := ""
  Message : Option Json := none
  ParentToolUseID : Option String := none
  SessionID : String := ""
deriving Repr

/-- `AssistantMessage` (from `types.go`); same shape as `UserMessage`. -/
structure AssistantMessage where
  «Type» : String := ""
  Message : Option Json := none
  ParentToolUseID : Option String := none
  SessionID : String := ""
deriving Repr

/-- `ResultMessage` (from `types.go`). -/
structure ResultMessage where
  «Type» : String := ""
  Subtype : String := ""
  DurationMS : Int := 0
  DurationAPIMS : Int := 0
  IsError : Bool := false
  NumTurns : Int := 0
  Result : String := ""
  SessionID : String := ""
  TotalCostUSD : Rat := 0
  Usage : Usage := {}
deriving Repr

/-- `SystemMessage` (from `types.go`). -/
structure SystemMessage where
  «Type» : String := ""
  Subtype : String := ""
  APIKeySource : String := ""
  CWD : String := ""
  SessionID : String := ""
  Tools : List String := []
  MCPServers : List MCPServerStatus := []
  Model : String := ""
  PermissionMode : String := ""
deriving Repr

/-- `PermissionRequestMessage` (from `types.go`). -/
structure PermissionRequestMessage where
  «Type» : String := ""
  SessionID : String := ""
  Subtype : String := ""
deriving Repr

/-- `Message` — the sealed interface of `types.go`, one variant per
concrete message type. -/
inductive Message where
  | user (m : UserMessage)
  | assistant (m : AssistantMessage)
  | result (m : ResultMessage)
  | system (m : SystemMessage)
  | permissionRequest (m : PermissionRequestMessage)
deriving Repr

/-- The `messageType()` method of each variant (from `types.go`). -/
def Message.messageType : Message → String
  | .user _ => "user"
  | .assistant _ => "assistant"
  | .result _ => "result"
  | .system _ => "system"
  | .permissionRequest _ => "permission_request"

/-! ### Structured errors (from `errors.go`) -/

/-- `ProcessError` (from `errors.go`). -/
structure ProcessError where
  ExitCode : Int
  Message : String
deriving Repr

/-- `ParseError` (from `errors.go`). -/
structure ParseError where
  Line : String
  Message : String
deriving Repr

/-- `ConfigError` (from `errors.go`). -/
structure ConfigError where
  Field : String := ""
  Value : String := ""
  Reason : String := ""
  Message : String := ""
deriving Repr

/-! ### Struct unmarshalling (model of `json.Unmarshal` into each
message struct).  Unmarshalling a struct succeeds on a JSON object (fields
decoded per tag, unknown keys ignored, absent fields left at their zero
values) and on `null` (which leaves the whole struct at its zero value);
any other top-level value is a type error. -/

/-- `json.Unmarshal` into the anonymous `struct { Type string }` used by
`ParseMessage` to peek the discriminator. -/
def decodeBaseType (j : Json) : Except String String :=
  match j with
  | .null => .ok ""
  | .obj fields => decodeStrField fields "type"
  | _ => .error "cannot unmarshal into struct"

/-- `json.Unmarshal` into `UserMessage`. -/
def decodeUserMessage (j : Json) : Except String UserMessage :=
  match j with
  | .null => .ok {}
  | .obj fields => do
    let t ← decodeStrField fields "type"
    let m ← decodeRawField fields "message"
    let pid ← decodeOptStrField fields "parent_tool_use_id"
    let sid ← decodeStrField fields "session_id"
    .ok { «Type» := t, Message := m, ParentToolUseID := pid, SessionID := sid }
  | _ => .error "cannot unmarshal into struct"

/-- `json.Unmarshal` into `AssistantMessage`. -/
def decodeAssistantMessage (j : Json) : Except String AssistantMessage :=
  match j with
  | .null => .ok {}
  | .obj fields => do
    let t ← decodeStrField fields "type"
    let m ← decodeRawField fields "message"
    let pid ← decodeOptStrField fields "parent_tool_use_id"
    let sid ← decodeStrField fields "session_id"
    .ok { «Type» := t, Message := m, ParentToolUseID := pid, SessionID := sid }
  | _ => .error "cannot unmarshal into struct"

/-- `json.Unmarshal` into `Usage`. -/
def decodeUsage (j : Json) : Except String Usage :=
  match j with
  | .null => .ok {}
  | .obj fields => do
    let cc ← decodeIntField fields "cache_creation_input_tokens"
    let cr ← decodeIntField fields "cache_read_input_tokens"
    let it ← decodeIntField fields "input_tokens"
    let ot ← decodeIntField fields "output_tokens"
    .ok { CacheCreationInputTokens := cc, CacheReadInputTokens := cr,
          InputTokens := it, OutputTokens := ot }
  | _ => .error "cannot unmarshal into struct"

/-- `json.Unmarshal` of the `usage` field of a `ResultMessage`. -/
def decodeUsageField (fields : List (String × Json)) : Except String Usage :=
  match jsonLookup "usage" fields with
  | none => .ok {}
  | some j => decodeUsage j

/-- `json.Unmarshal` into `ResultMessage`. -/
def decodeResultMessage (j : Json) : Except String ResultMessage :=
  match j with
  | .null => .ok {}
  | .obj fields => do
    let t ← decodeStrField fields "type"
    let st ← decodeStrField fields "subtype"
    let dm ← decodeIntField fields "duration_ms"
    let da ← decodeIntField fields "duration_api_ms"
    let ie ← decodeBoolField fields "is_error"
    let nt ← decodeIntField fields "num_turns"
    let r ← decodeStrField fields "result"
    let sid ← decodeStrField fields "session_id"
    let c ← decodeNumField fields "total_cost_usd"
    let u ← decodeUsageField fields
    .ok { «Type» := t, Subtype := st, DurationMS := dm, DurationAPIMS := da,
          IsError := ie, NumTurns := nt, Result := r, SessionID := sid,
          TotalCostUSD := c, Usage := u }
  | _ => .error "cannot unmarshal into struct"

/-- `json.Unmarshal` into `MCPServerStatus` (an element of the
`mcp_servers` array of a `SystemMessage`). -/
def decodeMCPServerStatus (j : Json) : Except String MCPServerStatus :=
  match j with
  | .null => .ok {}
  | .obj fields => do
    let n ← decodeStrField fields "name"
    let s ← decodeStrField fields "status"
    let e ← decodeStrField fields "error"
    .ok { Name := n, Status := s, Error := e }
  | _ => .error "cannot unmarshal into struct"

/-- Elementwise unmarshalling of a `[]MCPServerStatus` array. -/
def decodeStatusElems : List Json → Except String (List MCPServerStatus)
  | [] => .ok []
  | j :: rest => do
    let s ← decodeMCPServerStatus j
    let ss ← decodeStatusElems rest
    .ok (s :: ss)

/-- `json.Unmarshal` of the `mcp_servers` field of a `SystemMessage`. -/
def decodeStatusListField (fields : List (String × Json)) : Except String (List MCPServerStatus) :=
  match jsonLookup "mcp_servers" fields with
  | none => .ok []
  | some .null => .ok []
  | some (.arr xs) => decodeStatusElems xs
  | some _ => .error "cannot unmarshal into slice field mcp_servers"

/-- `json.Unmarshal` into `SystemMessage`. -/
def decodeSystemMessage (j : Json) : Except String SystemMessage :=
  match j with
  | .null => .ok {}
  | .obj fields => do
    let t ← decodeStrField fields "type"
    let st ← decodeStrField fields "subtype"
    let ak ← decodeStrField fields "apiKeySource"
    let cwd ← decodeStrField fields "cwd"
    let sid ← decodeStrField fields "session_id"
    let tools ← decodeStrListField fields "tools"
    let servers ← decodeStatusListField fields
    let m ← decodeStrField fields "model"
    let pm ← decodeStrField fields "permissionMode"
    .ok { «Type» := t, Subtype := st, APIKeySource := ak, CWD := cwd,
          SessionID := sid, Tools := tools, MCPServers := servers,
          Model := m, PermissionMode := pm }
  | _ => .error "cannot unmarshal into struct"

/-- `json.Unmarshal` into `PermissionRequestMessage`. -/
def decodePermissionRequestMessage (j : Json) : Except String PermissionRequestMessage :=
  match j with
  | .null => .ok {}
  | .obj fields => do
    let t ← decodeStrField fields "type"
    let sid ← decodeStrField fields "session_id"
    let st ← decodeStrField fields "subtype"
    .ok { «Type» := t, SessionID := sid, Subtype := st }
  | _ => .error "cannot unmarshal into struct"

/-! ### The line decoder / message router (from `message.go`) -/

/-- `ParseMessage` (from `message.go`): peek the `type` discriminator with
a first unmarshal, then fully decode into the variant it names.  A
malformed line, a discriminator of the wrong JSON type, a failing variant
decode, and an unknown discriminator each produce a `ParseError` carrying
the offending raw line. -/
def ParseMessage (line : RawLine) : Except ParseError Message :=
  match line.json with
  | none => .error { Line := line.raw, Message := "invalid JSON" }
  | some j =>
    match decodeBaseType j with
    | .error e => .error { Line := line.raw, Message := e }
    | .ok t =>
      if t = "user" then
        match decodeUserMessage j with
        | .error e => .error { Line := line.raw, Message := "failed to parse user message: " ++ e }
        | .ok m => .ok (.user m)
      else if t = "assistant" then
        match decodeAssistantMessage j with
        | .error e => .error { Line := line.raw, Message := "failed to parse assistant message: " ++ e }
        | .ok m => .ok (.assistant m)
      else if t = "result" then
        match decodeResultMessage j with
        | .error e => .error { Line := line.raw, Message := "failed to parse result message: " ++ e }
        | .ok m => .ok (.result m)
      else if t = "system" then
        match decodeSystemMessage j with
        | .error e => .error { Line := line.raw, Message := "failed to parse system message: " ++ e }
        | .ok m => .ok (.system m)
      else if t = "permission_request" then
        match decodePermissionRequestMessage j with
        | .error e => .error { Line := line.raw, Message := "failed to parse permission request message: " ++ e }
        | .ok m => .ok (.permissionRequest m)
      else
        .error { Line := line.raw, Message := "unknown message type: " ++ t }

/-! ### Options (from `types.go`) -/

/-- `MCPServerConfig` — the sealed interface of `types.go`, one variant per
concrete server configuration struct. -/
inductive MCPServerConfig where
  | stdio (Command : String) (Args : List String) (Env : List (String × String))
  | sse (URL : String) (Headers : List (String × String))
  | http (URL : String) (Headers : List (String × String))
deriving Repr, DecidableEq

/-- `Options` (from `types.go`).  Go maps become association lists; the
`MCPServers` map may hold a `nil` interface value, modelled by `none`; the
`*int` fields become `Option Int`. -/
structure Options where
  AllowedTools : List String := []
  DisallowedTools : List String := []
  CustomSystemPrompt : String := ""
  AppendSystemPrompt : String := ""
  WorkingDir : String := ""
  MaxThinkingTokens : Option Int := none
  MaxTurns : Option Int := none
  MCPServers : List (String × Option MCPServerConfig) := []
  PathToClaudeCodeExecutable : String := ""
  PermissionMode : String := ""
  PermissionPromptToolName : String := ""
  Continue : Bool := false
  Resume : String := ""
  Model : String := ""
  FallbackModel : String := ""
deriving Repr

/-! ### JSON marshalling helpers (model of `json.Marshal` as used by
`BuildArgs` on the MCP-server map).  `json.Marshal` emits map keys in
sorted order; string escaping is modelled for quotes and backslashes. -/

/-- Escape a string for inclusion in a JSON literal (model). -/
def escapeJson (s : String) : String :=
  s.foldl (fun acc c =>
    acc ++ (if c = '\\' then "\\\\" else if c = '"' then "\\\"" else String.singleton c)) ""

/-- Render a JSON string literal. -/
def jstr (s : String) : String := "\"" ++ escapeJson s ++ "\""

/-- Render a JSON array of strings. -/
def jarr (xs : List String) : String :=
  "[" ++ String.intercalate "," (xs.map jstr) ++ "]"

/-- Render a JSON object given already-rendered values. -/
def jobj (fields : List (String × String)) : String :=
  "\x7b" ++ String.intercalate "," (fields.map fun p => jstr p.1 ++ ":" ++ p.2) ++ "\x7d"

/-- Insert into an association list sorted by key (for the sorted-key order
of `json.Marshal` on maps). -/
def insertByKey {α : Type} (p : String × α) : List (String × α) → List (String × α)
  | [] => [p]
  | q :: rest => if p.1 ≤ q.1 then p :: q :: rest else q :: insertByKey p rest

/-- Sort an association list by key. -/
def sortByKey {α : Type} (xs : List (String × α)) : List (String × α) :=
  xs.foldr insertByKey []

/-- `json.Marshal` of one concrete MCP server configuration struct
(no struct tags, so the Go field names appear verbatim). -/
def MCPServerConfig.marshal : MCPServerConfig → String
  | .stdio c args env =>
    jobj [("Command", jstr c), ("Args", jarr args),
          ("Env", jobj ((sortByKey env).map fun p => (p.1, jstr p.2)))]
  | .sse url headers =>
    jobj [("URL", jstr url),
          ("Headers", jobj ((sortByKey headers).map fun p => (p.1, jstr p.2)))]
  | .http url headers =>
    jobj [("URL", jstr url),
          ("Headers", jobj ((sortByKey headers).map fun p => (p.1, jstr p.2)))]

/-- `json.Marshal` of the `map[string]MCPServerConfig` (keys sorted; a
`nil` interface value marshals as `null`). -/
def marshalMCPServers (servers : List (String × Option MCPServerConfig)) : String :=
  jobj ((sortByKey servers).map fun p =>
    (p.1, match p.2 with
          | some c => c.marshal
          | none => "null"))

/-! ### The argument builder (from `builder.go`) -/

/-- `ArgumentBuilder.BuildArgs` (from `builder.go`), translated append by
append: starting from the empty list, each non-default option field
appends its flag (and value) in the order of the source. -/
def BuildArgs (opts : Option Options) : List String :=
  match opts with
  | none => []
  | some o =>
    let args : List String := []
    let args := if o.Model ≠ "" then args ++ ["--model", o.Model] else args
    let args := if o.FallbackModel ≠ "" then args ++ ["--fallback-model", o.FallbackModel] else args
    let args := if o.Continue then args ++ ["--continue"] else args
    let args := if o.Resume ≠ "" then args ++ ["--resume", o.Resume] else args
    let args := if o.CustomSystemPrompt ≠ "" then args ++ ["--system-prompt", o.CustomSystemPrompt] else args
    let args := if o.AppendSystemPrompt ≠ "" then args ++ ["--append-system-prompt", o.AppendSystemPrompt] else args
    let args := if o.AllowedTools.length > 0 then args ++ ["--allowed-tools", String.intercalate "," o.AllowedTools] else args
    let args := if o.DisallowedTools.length > 0 then args ++ ["--disallowed-tools", String.intercalate "," o.DisallowedTools] else args
    let args := match o.MaxThinkingTokens with
                | some n => args ++ ["--max-thinking-tokens", toString n]
                | none => args
    let args := match o.MaxTurns with
                | some n => args ++ ["--max-turns", toString n]
                | none => args
    let args := if o.PermissionMode ≠ "" then args ++ ["--permission-mode", o.PermissionMode] else args
    let args := if o.PermissionPromptToolName ≠ "" then args ++ ["--permission-prompt-tool-name", o.PermissionPromptToolName] else args
    let args := if o.MCPServers.length > 0 then args ++ ["--mcp-servers", marshalMCPServers o.MCPServers] else args
    args

/-- The valid permission modes (from `types.go` constants, as consulted by
`ArgumentBuilder.Validate`). -/
def validPermissionModes : List String :=
  ["default", "acceptEdits", "bypassPermissions", "plan"]

/-- First `nil` entry of the MCP server map, in iteration order (Go map
iteration order is unspecified; the model fixes the list order). -/
def firstNilServer : List (String × Option MCPServerConfig) → Option String
  | [] => none
  | (name, none) :: _ => some name
  | (_, some _) :: rest => firstNilServer rest

/-- `ArgumentBuilder.Validate` (from `builder.go`): checks, in source
order, the numeric limits, the MCP server map, and the permission mode,
returning the first violation as a `ConfigError`. -/
def Validate (opts : Option Options) : Option ConfigError :=
  match opts with
  | none => none
  | some o =>
    match o.MaxThinkingTokens with
    | some n =>
      if n < 0 then
        some { Field := "MaxThinkingTokens", Value := toString n, Reason := "must be non-negative" }
      else Validate.rest o
    | none => Validate.rest o
where
  /-- Continuation after the `MaxThinkingTokens` check. -/
  rest (o : Options) : Option ConfigError :=
    match o.MaxTurns with
    | some n =>
      if n < 0 then
        some { Field := "MaxTurns", Value := toString n, Reason := "must be non-negative" }
      else rest2 o
    | none => rest2 o
  /-- Continuation after the numeric checks. -/
  rest2 (o : Options) : Option ConfigError :=
    match firstNilServer o.MCPServers with
    | some name =>
      some { Field := "MCPServers[" ++ name ++ "]", Value := "nil", Reason := "server config cannot be nil" }
    | none =>
      if o.PermissionMode ≠ "" ∧ ¬ (o.PermissionMode ∈ validPermissionModes) then
        some { Field := "PermissionMode", Value := o.PermissionMode,
               Reason := "must be 'default', 'acceptEdits', 'bypassPermissions', or 'plan'" }
      else none

/-! ### The process executor (from `executor.go`) -/

/-- A record of one spawn request handed to the executor: executable name,
argument list, the prompt written to standard input, and the working
directory passed (empty = inherit the caller's). -/
structure ExecCall where
  name : String
  args : List String
  stdin : String
  workingDir : String
deriving Repr

/-- The current directory the spawned process sees (from
`DefaultCommandExecutor`: `cmd.Dir` is set only for a non-empty
`workingDir`, otherwise the caller's directory is inherited). -/
def effectiveDir (workingDir callerDir : String) : String :=
  if workingDir ≠ "" then workingDir else callerDir

/-- Observable behaviour of one subprocess in one-shot mode: whether it
started (`start = .error msg` models `exec.CommandContext` failing before
an `*exec.ExitError` can exist), its exit code, and its combined
standard-output+standard-error bytes. -/
structure OneShotProc where
  start : Except String Unit
  exitCode : Int
  output : RawLine
deriving Repr

/-- Errors out of `DefaultCommandExecutor.Execute`: either a
`ProcessError` (non-zero exit) or the untyped start-failure error. -/
inductive ExecError where
  | process (e : ProcessError)
  | failure (msg : String)
deriving Repr

/-- `DefaultCommandExecutor.Execute` (from `executor.go`): run to
completion; a non-zero exit becomes a `ProcessError` carrying the exit
code and the combined output; a start failure is returned untyped; on
success the combined output bytes are returned. -/
def Execute (p : OneShotProc) : Except ExecError RawLine :=
  match p.start with
  | .error msg => .error (.failure msg)
  | .ok _ =>
    if p.exitCode ≠ 0 then
      .error (.process { ExitCode := p.exitCode, Message := p.output.raw })
    else
      .ok p.output

/-- Residual error state of the output scanner once the line stream is
exhausted (`bufio.Scanner.Err`): `none` = clean end of stream. -/
inductive ReadErr where
  | eof
  | other (msg : String)
deriving Repr

/-- Observable behaviour of one subprocess in streaming mode: whether it
started, the lines it emits on standard output, the scanner's residual
error after the last line, the captured standard-error text, and the
outcome of `cmd.Wait` observed at close time (`.ok code` = exited with
`code`; `.error msg` = a non-`ExitError` failure). -/
structure StreamProc where
  start : Except String Unit
  lines : List RawLine
  residual : Option ReadErr
  stderr : String
  waitResult : Except String Int
deriving Repr

/-- Result of `streamReader.Close` (from `executor.go`): close the pipe,
`Wait` for the process (reaping it), and convert a non-zero exit into a
`ProcessError` carrying the exit code and the captured stderr. -/
inductive CloseResult where
  | ok
  | process (e : ProcessError)
  | failure (msg : String)
deriving Repr

/-- `streamReader.Close` (from `executor.go`). -/
def streamReaderClose (p : StreamProc) : CloseResult :=
  match p.waitResult with
  | .error msg => .failure msg
  | .ok code =>
    if code ≠ 0 then
      .process { ExitCode := code, Message := p.stderr }
    else
      .ok

/-! ### The one-shot query (from `claude.go`, `clientImpl.Query`) -/

/-- Errors returned by `Query` / `QueryStream`. -/
inductive QueryError where
  | config (e : ConfigError)
  | process (e : ProcessError)
  | execFailure (msg : String)
  | parse (e : ParseError)
deriving Repr

/-- The executable resolved for a call: the option's override, else the
default name `claude`. -/
def resolveExecutable (o : Options) : String :=
  if o.PathToClaudeCodeExecutable = "" then "claude" else o.PathToClaudeCodeExecutable

/-- `clientImpl.Query` (from `claude.go`), over the default components:
reject an empty prompt, default nil options, validate, build the one-shot
argument list, run the executor, propagate a `ProcessError` unchanged,
wrap any other execution failure, and decode the whole output as one JSON
document into `ResultMessage` (a decode failure becoming a `ParseError`
carrying the raw output).  Alongside the result, the list of spawn
requests issued to the executor is returned. -/
def Query (p : OneShotProc) (prompt : String) (opts : Option Options) :
    Except QueryError ResultMessage × List ExecCall :=
  if prompt = "" then
    (.error (.config { Field := "prompt", Message := "prompt is required" }), [])
  else
    let o := opts.getD {}
    match Validate (some o) with
    | some e => (.error (.config e), [])
    | none =>
      let executable := resolveExecutable o
      let args := ["--print", "--output-format", "json"] ++ BuildArgs (some o)
      let call : ExecCall := { name := executable, args := args, stdin := prompt, workingDir := o.WorkingDir }
      match Execute p with
      | .error (.process pe) => (.error (.process pe), [call])
      | .error (.failure msg) => (.error (.execFailure ("failed to execute command: " ++ msg)), [call])
      | .ok output =>
        match output.json with
        | none =>
          (.error (.parse { Line := output.raw, Message := "failed to parse JSON response: invalid JSON" }), [call])
        | some j =>
          match decodeResultMessage j with
          | .error e =>
            (.error (.parse { Line := output.raw, Message := "failed to parse JSON response: " ++ e }), [call])
          | .ok result => (.ok result, [call])

/-! ### The streaming query (from `stream.go`) -/

/-- An item of the message channel (`MessageOrError` in `stream.go`):
either a decoded message or an error (a `ParseError` from the decoder, or
the wrapped residual read error). -/
inductive MessageOrError where
  | msg (m : Message)
  | err (e : QueryError)
deriving Repr

/-- Why the background reader returned. -/
inductive ExitReason where
  | endOfStream
  | parseFailure
  | readFailure
  | cancelled
deriving Repr, DecidableEq

/-- Whether the governing context is already cancelled at delivery attempt
`k`.  `cancelAt = some c` models a consumer that cancels the context (via
the input context or `MessageStream.Close`) before the `c`-th delivery
attempt; `none` models a consumer that receives everything. -/
def ctxDone (cancelAt : Option Nat) (k : Nat) : Bool :=
  match cancelAt with
  | none => false
  | some c => decide (c ≤ k)

/-- The scan loop of the background reader goroutine (from `stream.go`):
one line at a time, blank lines skipped; a decode failure is offered as an
error item and the loop returns; a decoded message is offered as an item;
every offer races against cancellation of the governing context, the
reader returning without delivering when the context is already done;
after the last line, a residual scanner error other than end-of-stream is
offered as a final error item.  `k` counts delivery attempts so far. -/
def readLoop (cancelAt : Option Nat) (residual : Option ReadErr) :
    List RawLine → Nat → List MessageOrError × ExitReason
  | [], k =>
    match residual with
    | some (.other msg) =>
      if ctxDone cancelAt k then ([], .cancelled)
      else ([.err (.execFailure ("error reading stream: " ++ msg))], .readFailure)
    | _ => ([], .endOfStream)
  | line :: rest, k =>
    if line.raw = "" then
      readLoop cancelAt residual rest k
    else
      match ParseMessage line with
      | .error e =>
        if ctxDone cancelAt k then ([], .cancelled)
        else ([.err (.parse e)], .parseFailure)
      | .ok m =>
        if ctxDone cancelAt k then ([], .cancelled)
        else
          let r := readLoop cancelAt residual rest (k + 1)
          (.msg m :: r.1, r.2)

/-- The observable outcome of one run of the background reader, including
the deferred cleanup of `stream.go` (`defer close(messages)`,
`defer stream.Close()`, `defer cancel()`), which runs on every return
path of the goroutine. -/
structure ReaderRun where
  items : List MessageOrError
  exit : ExitReason
  channelClosed : Bool
  handleClosed : Bool
  cancelCalled : Bool
deriving Repr

/-- One run of the background reader goroutine of `stream.go`: the scan
loop followed by the three deferred cleanup actions. -/
def runReader (cancelAt : Option Nat) (p : StreamProc) : ReaderRun :=
  let r := readLoop cancelAt p.residual p.lines 0
  { items := r.1, exit := r.2,
    channelClosed := true, handleClosed := true, cancelCalled := true }

/-- `QueryStream` (from `stream.go`): reject an empty prompt, default nil
options, validate, build the streaming argument list, start the process
in streaming mode (a start failure tears the context down and is returned,
a `ProcessError` unchanged and anything else wrapped), then run the
background reader.  Note (stream.go line 61): the call to `ExecuteStream`
passes only the context, executable, arguments and prompt — the option's
`WorkingDir` is not forwarded, so the spawn request carries an empty
working directory.  Alongside the result, the list of spawn requests is
returned. -/
def QueryStream (p : StreamProc) (prompt : String) (opts : Option Options)
    (cancelAt : Option Nat) : Except QueryError ReaderRun × List ExecCall :=
  if prompt = "" then
    (.error (.config { Field := "prompt", Message := "prompt is required" }), [])
  else
    let o := opts.getD {}
    match Validate (some o) with
    | some e => (.error (.config e), [])
    | none =>
      let executable := resolveExecutable o
      let args := ["--print", "--output-format", "stream-json", "--verbose"] ++ BuildArgs (some o)
      let call : ExecCall := { name := executable, args := args, stdin := prompt, workingDir := "" }
      match p.start with
      | .error msg => (.error (.execFailure ("failed to execute command: " ++ msg)), [call])
      | .ok _ => (.ok (runReader cancelAt p), [call])

/-! ### Specification-side definitions

These definitions follow the wording of the specification (not the
source); the theorems compare the source-side definitions against them. -/

/-- The conditional flag list as the specification words it: thirteen
segments in a fixed order, each present exactly when the corresponding
option field is non-default/non-empty. -/
def BuildArgsSpec (o : Options) : List String :=
  (if o.Model ≠ "" then ["--model", o.Model] else []) ++
  (if o.FallbackModel ≠ "" then ["--fallback-model", o.FallbackModel] else []) ++
  (if o.Continue then ["--continue"] else []) ++
  (if o.Resume ≠ "" then ["--resume", o.Resume] else []) ++
  (if o.CustomSystemPrompt ≠ "" then ["--system-prompt", o.CustomSystemPrompt] else []) ++
  (if o.AppendSystemPrompt ≠ "" then ["--append-system-prompt", o.AppendSystemPrompt] else []) ++
  (if o.AllowedTools ≠ [] then ["--allowed-tools", String.intercalate "," o.AllowedTools] else []) ++
  (if o.DisallowedTools ≠ [] then ["--disallowed-tools", String.intercalate "," o.DisallowedTools] else []) ++
  (match o.MaxThinkingTokens with
   | some n => ["--max-thinking-tokens", toString n]
   | none => []) ++
  (match o.MaxTurns with
   | some n => ["--max-turns", toString n]
   | none => []) ++
  (if o.PermissionMode ≠ "" then ["--permission-mode", o.PermissionMode] else []) ++
  (if o.PermissionPromptToolName ≠ "" then ["--permission-prompt-tool-name", o.PermissionPromptToolName] else []) ++
  (if o.MCPServers ≠ [] then ["--mcp-servers", marshalMCPServers o.MCPServers] else [])

/-! ### Helper lemmas -/

theorem append_ite {c : Prop} [Decidable c] (x s : List String) :
    (if c then x ++ s else x) = x ++ (if c then s else []) := by
  by_cases h : c <;> simp [h]

theorem ite_append {c : Prop} [Decidable c] (x s : List String) :
    (if c then x else x ++ s) = x ++ (if c then [] else s) := by
  by_cases h : c <;> simp [h]

/-! ### C3 — empty-prompt rejection -/

/-- C3: for every options value (including nil), both the one-shot query
and the streaming query reject an empty prompt with a `ConfigError` naming
field `prompt`, and no process is spawned. -/
theorem c3_empty_prompt_rejected (p : OneShotProc) (sp : StreamProc)
    (opts : Option Options) (cancelAt : Option Nat) :
    Query p "" opts =
      (.error (.config { Field := "prompt", Message := "prompt is required" }), []) ∧
    QueryStream sp "" opts cancelAt =
      (.error (.config { Field := "prompt", Message := "prompt is required" }), []) := by
  constructor <;> rfl

/-! ### C4 — option validation precedes execution -/

/-- C4: whenever validation rejects the options, both queries return that
exact `ConfigError` and spawn no process; a negative `MaxThinkingTokens`,
a negative `MaxTurns` (numerics before it valid), a `nil` MCP server
entry (numerics valid), and an out-of-enum permission mode (everything
before it valid) are each rejected with a `ConfigError` identifying the
offending field, its value and the reason. -/
theorem c4_validation_precedes_execution (o : Options) (p : OneShotProc)
    (sp : StreamProc) (prompt : String) (cancelAt : Option Nat)
    (hp : prompt ≠ "") :
    (∀ e, Validate (some o) = some e →
      Query p prompt (some o) = (.error (.config e), []) ∧
      QueryStream sp prompt (some o) cancelAt = (.error (.config e), [])) ∧
    (∀ n, o.MaxThinkingTokens = some n → n < 0 →
      Validate (some o) =
        some { Field := "MaxThinkingTokens", Value := toString n, Reason := "must be non-negative" }) ∧
    ((∀ n, o.MaxThinkingTokens = some n → 0 ≤ n) →
      ∀ n, o.MaxTurns = some n → n < 0 →
      Validate (some o) =
        some { Field := "MaxTurns", Value := toString n, Reason := "must be non-negative" }) ∧
    ((∀ n, o.MaxThinkingTokens = some n → 0 ≤ n) →
      (∀ n, o.MaxTurns = some n → 0 ≤ n) →
      ∀ name, firstNilServer o.MCPServers = some name →
      Validate (some o) =
        some { Field := "MCPServers[" ++ name ++ "]", Value := "nil",
               Reason := "server config cannot be nil" }) ∧
    ((∀ n, o.MaxThinkingTokens = some n → 0 ≤ n) →
      (∀ n, o.MaxTurns = some n → 0 ≤ n) →
      firstNilServer o.MCPServers = none →
      o.PermissionMode ≠ "" →
      o.PermissionMode ∉ validPermissionModes →
      Validate (some o) =
        some { Field := "PermissionMode", Value := o.PermissionMode,
               Reason := "must be 'default', 'acceptEdits', 'bypassPermissions', or 'plan'" }) := by
  refine ⟨?_, ?_, ?_, ?_, ?_⟩
  · intro e he
    constructor
    · simp [Query, hp, he]
    · simp [QueryStream, hp, he]
  · intro n hn hneg
    simp [Validate, hn, hneg]
  · intro hok n hn hneg
    have hrest : Validate (some o) = Validate.rest o := by
      cases h : o.MaxThinkingTokens with
      | none => simp [Validate, h]
      | some m =>
        have := hok m h
        simp [Validate, h, not_lt.mpr this]
    rw [hrest]
    simp [Validate.rest, hn, hneg]
  · intro hok1 hok2 name hname
    have hrest : Validate (some o) = Validate.rest o := by
      cases h : o.MaxThinkingTokens with
      | none => simp [Validate, h]
      | some m =>
        have := hok1 m h
        simp [Validate, h, not_lt.mpr this]
    have hrest2 : Validate.rest o = Validate.rest2 o := by
      cases h : o.MaxTurns with
      | none => simp [Validate.rest, h]
      | some m =>
        have := hok2 m h
        simp [Validate.rest, h, not_lt.mpr this]
    rw [hrest, hrest2]
    simp [Validate.rest2, hname]
  · intro hok1 hok2 hnil hpm hmem
    have hrest : Validate (some o) = Validate.rest o := by
      cases h : o.MaxThinkingTokens with
      | none => simp [Validate, h]
      | some m =>
        have := hok1 m h
        simp [Validate, h, not_lt.mpr this]
    have hrest2 : Validate.rest o = Validate.rest2 o := by
      cases h : o.MaxTurns with
      | none => simp [Validate.rest, h]
      | some m =>
        have := hok2 m h
        simp [Validate.rest, h, not_lt.mpr this]
    rw [hrest, hrest2]
    simp [Validate.rest2, hnil, hpm, hmem]

/-- Witness for C4 at concrete inputs. -/
theorem c4_validation_witness :
    Validate (some { MaxThinkingTokens := some (-1) }) =
      some { Field := "MaxThinkingTokens", Value := "-1", Reason := "must be non-negative" } ∧
    Query { start := .ok (), exitCode := 0, output := { raw := "", json := none } } "hi"
        (some { MaxThinkingTokens := some (-1) }) =
      (.error (.config { Field := "MaxThinkingTokens", Value := "-1", Reason := "must be non-negative" }), []) := by
  have h := c4_validation_precedes_execution
    { MaxThinkingTokens := some (-1) }
    { start := .ok (), exitCode := 0, output := { raw := "", json := none } }
    { start := .ok (), lines := [], residual := none, stderr := "", waitResult := .ok 0 }
    "hi" none (by decide)
  have hv : Validate (some ({ MaxThinkingTokens := some (-1) } : Options)) =
      some { Field := "MaxThinkingTokens", Value := "-1", Reason := "must be non-negative" } :=
    h.2.1 (-1) rfl (by decide)
  exact ⟨hv, (h.1 _ hv).1⟩

/-! ### C5 — flag mapping determinism -/

/-- C5: the built argument list equals the specification's fixed-order
segment concatenation (each flag present exactly when its field is
non-default), and with no fields set the built list (the always-present
flags excluded) is empty. -/
theorem c5_flag_mapping :
    (∀ o : Options, BuildArgs (some o) = BuildArgsSpec o) ∧
    BuildArgs (some {}) = [] ∧
    BuildArgs none = [] := by
  refine ⟨?_, rfl, rfl⟩
  intro o
  cases hmt : o.MaxThinkingTokens <;> cases hmx : o.MaxTurns <;>
    (simp only [BuildArgs, BuildArgsSpec, hmt, hmx]
     simp only [append_ite]
     simp only [List.append_assoc, List.nil_append, gt_iff_lt, List.length_pos])

/-! ### C8 — the message router decodes by discriminator only -/

/-- C8: for every line, a malformed (non-JSON) line yields a `ParseError`
carrying the raw line; a failing discriminator peek yields a `ParseError`
carrying the raw line; a well-formed line whose discriminator is not one
of the five known values yields the unknown-type `ParseError` carrying the
raw line; and whenever a message is returned at all, its variant is
exactly the one the discriminator names. -/
theorem c8_message_router (line : RawLine) :
    (line.json = none →
      ∃ msg, ParseMessage line = .error { Line := line.raw, Message := msg }) ∧
    (∀ j e, line.json = some j → decodeBaseType j = .error e →
      ParseMessage line = .error { Line := line.raw, Message := e }) ∧
    (∀ j t, line.json = some j → decodeBaseType j = .ok t →
      t ∉ ["user", "assistant", "result", "system", "permission_request"] →
      ParseMessage line =
        .error { Line := line.raw, Message := "unknown message type: " ++ t }) ∧
    (∀ j t m, line.json = some j → decodeBaseType j = .ok t →
      ParseMessage line = .ok m → m.messageType = t) := by
  refine ⟨?_, ?_, ?_, ?_⟩
  · intro h
    exact ⟨"invalid JSON", by simp [ParseMessage, h]⟩
  · intro j e hj he
    simp [ParseMessage, hj, he]
  · intro j t hj ht hmem
    simp only [List.mem_cons, List.not_mem_nil, or_false, not_or] at hmem
    obtain ⟨h1, h2, h3, h4, h5⟩ := hmem
    simp [ParseMessage, hj, ht, h1, h2, h3, h4, h5]
  · intro j t m hj ht hok
    simp only [ParseMessage, hj, ht] at hok
    by_cases h1 : t = "user"
    · simp only [h1, if_true] at hok
      cases hd : decodeUserMessage j <;> simp [hd] at hok
      simp [← hok, Message.messageType, h1]
    by_cases h2 : t = "assistant"
    · simp only [h1, h2, if_false, if_true] at hok
      cases hd : decodeAssistantMessage j <;> simp [hd] at hok
      simp [← hok, Message.messageType, h2]
    by_cases h3 : t = "result"
    · simp only [h1, h2, h3, if_false, if_true] at hok
      cases hd : decodeResultMessage j <;> simp [hd] at hok
      simp [← hok, Message.messageType, h3]
    by_cases h4 : t = "system"
    · simp only [h1, h2, h3, h4, if_false, if_true] at hok
      cases hd : decodeSystemMessage j <;> simp [hd] at hok
      simp [← hok, Message.messageType, h4]
    by_cases h5 : t = "permission_request"
    · simp only [h1, h2, h3, h4, h5, if_false, if_true] at hok
      cases hd : decodePermissionRequestMessage j <;> simp [hd] at hok
      simp [← hok, Message.messageType, h5]
    simp [h1, h2, h3, h4, h5] at hok

/-- Witness for C8 at concrete inputs: a malformed line, and a well-formed
line with an unknown discriminator. -/
theorem c8_message_router_witness :
    ParseMessage { raw := "not json", json := none } =
      .error { Line := "not json", Message := "invalid JSON" } ∧
    ParseMessage { raw := "x", json := some (.obj [("type", .str "banana")]) } =
      .error { Line := "x", Message := "unknown message type: banana" } := by
  constructor
  · obtain ⟨msg, hmsg⟩ := (c8_message_router { raw := "not json", json := none }).1 rfl
    rw [hmsg]
    have h : msg = "invalid JSON" := by
      have := hmsg
      simp [ParseMessage] at this
      exact this.symm
    rw [h]
  · exact (c8_message_router { raw := "x", json := some (.obj [("type", .str "banana")]) }).2.2.1
      (.obj [("type", .str "banana")]) "banana" rfl rfl (by decide)

/-! ### C7 — non-zero exit surfaces as a `ProcessError` -/

/-- C7: a subprocess that runs and exits non-zero makes the one-shot query
return a `ProcessError` carrying the exit code and the combined output
text, unchanged and unwrapped; a failure to even start is returned as a
distinct, non-`ProcessError`, wrapped execution error; and in streaming
mode, closing the output handle after a non-zero exit returns a
`ProcessError` carrying the exit code and the captured stderr text. -/
theorem c7_nonzero_exit_process_error (p : OneShotProc) (sp : StreamProc)
    (prompt : String) (opts : Option Options)
    (hp : prompt ≠ "") (hv : Validate (some (opts.getD {})) = none) :
    (p.start = .ok () → p.exitCode ≠ 0 →
      (Query p prompt opts).1 =
        .error (.process { ExitCode := p.exitCode, Message := p.output.raw })) ∧
    (∀ msg, p.start = .error msg →
      (Query p prompt opts).1 =
        .error (.execFailure ("failed to execute command: " ++ msg))) ∧
    (∀ code, sp.waitResult = .ok code → code ≠ 0 →
      streamReaderClose sp = .process { ExitCode := code, Message := sp.stderr }) := by
  refine ⟨?_, ?_, ?_⟩
  · intro hs hc
    simp [Query, hp, hv, Execute, hs, hc]
  · intro msg hs
    simp [Query, hp, hv, Execute, hs]
  · intro code hw hc
    simp [streamReaderClose, hw, hc]

/-- Witness for C7: exit code 2 with "boom" on the diagnostic streams. -/
theorem c7_nonzero_exit_witness :
    (Query { start := .ok (), exitCode := 2, output := { raw := "boom", json := none } }
        "hi" none).1 =
      .error (.process { ExitCode := 2, Message := "boom" }) ∧
    streamReaderClose { start := .ok (), lines := [], residual := none, stderr := "boom", waitResult := .ok 2 } =
      .process { ExitCode := 2, Message := "boom" } := by
  have h := c7_nonzero_exit_process_error
    { start := .ok (), exitCode := 2, output := { raw := "boom", json := none } }
    { start := .ok (), lines := [], residual := none, stderr := "boom", waitResult := .ok 2 }
    "hi" none (by decide) rfl
  exact ⟨h.1 rfl (by decide), h.2.2 2 rfl (by decide)⟩

/-! ### C6 — working directory of the spawned subprocess -/

/-- C6: after validation, the one-shot query's spawn request carries the
option's `WorkingDir` (and the executor makes it the subprocess's current
directory when non-empty, the caller's directory being inherited when
empty) — but the streaming query's spawn request carries an empty working
directory regardless of the option, because `stream.go` line 61 does not
pass `opts.WorkingDir` to `ExecuteStream`. -/
theorem c6_working_directory (o : Options) (p : OneShotProc) (sp : StreamProc)
    (prompt : String) (cancelAt : Option Nat)
    (hp : prompt ≠ "") (hv : Validate (some o) = none) :
    ((Query p prompt (some o)).2.map ExecCall.workingDir = [o.WorkingDir]) ∧
    (∀ callerDir, effectiveDir o.WorkingDir callerDir =
      if o.WorkingDir = "" then callerDir else o.WorkingDir) ∧
    ((QueryStream sp prompt (some o) cancelAt).2.map ExecCall.workingDir = [""]) := by
  refine ⟨?_, ?_, ?_⟩
  · simp only [Query, hp, if_neg hp, Option.getD_some, hv]
    cases hs : p.start with
    | error msg => simp [Execute, hs]
    | ok u =>
      by_cases hc : p.exitCode ≠ 0
      · simp [Execute, hs, hc]
      · cases hj : p.output.json with
        | none => simp [Execute, hs, hc, hj]
        | some j =>
          cases hd : decodeResultMessage j <;> simp [Execute, hs, hc, hj, hd]
  · intro callerDir
    by_cases h : o.WorkingDir = "" <;> simp [effectiveDir, h]
  · simp only [QueryStream, hp, if_neg hp, Option.getD_some, hv]
    cases hs : sp.start <;> simp [hs]

/-- Witness for C6: with `WorkingDir = "/tmp"`, the one-shot spawn request
carries "/tmp" while the streaming spawn request carries "". -/
theorem c6_working_directory_witness :
    ((Query { start := .ok (), exitCode := 0, output := { raw := "", json := none } }
        "hi" (some { WorkingDir := "/tmp" })).2.map ExecCall.workingDir = ["/tmp"]) ∧
    ((QueryStream { start := .ok (), lines := [], residual := none, stderr := "", waitResult := .ok 0 }
        "hi" (some { WorkingDir := "/tmp" }) none).2.map ExecCall.workingDir = [""]) := by
  have h := c6_working_directory { WorkingDir := "/tmp" }
    { start := .ok (), exitCode := 0, output := { raw := "", json := none } }
    { start := .ok (), lines := [], residual := none, stderr := "", waitResult := .ok 0 }
    "hi" none (by decide) rfl
  exact ⟨h.1, h.2.2⟩

/-! ### C9 — one-shot decode round trip -/

/-- The spec's round-trip document: a well-formed `result`-type JSON
document with `session_id = "s1"` and usage tokens 10/20. -/
def roundTripDoc : RawLine :=
  { raw := "\x7b\"type\":\"result\",\"session_id\":\"s1\",\"usage\":\x7b\"input_tokens\":10,\"output_tokens\":20\x7d\x7d",
    json := some (.obj [("type", .str "result"), ("session_id", .str "s1"),
      ("usage", .obj [("input_tokens", .num 10), ("output_tokens", .num 20)])]) }

/-- A successfully started, cleanly exiting subprocess with the given
output document. -/
def okProc (doc : RawLine) : OneShotProc :=
  { start := .ok (), exitCode := 0, output := doc }

/-- C9: on subprocess success the one-shot query returns exactly the value
the whole-output JSON document decodes to (in particular, the spec's
round-trip document yields `session_id = "s1"` and usage tokens 10/20,
all other fields zero); a decode failure yields a `ParseError` whose
offending text is the raw output bytes and whose message carries the
decode diagnostic. -/
theorem c9_oneshot_decode (p : OneShotProc) (prompt : String) (opts : Option Options)
    (hp : prompt ≠ "") (hv : Validate (some (opts.getD {})) = none)
    (hs : p.start = .ok ()) (he : p.exitCode = 0) :
    (∀ j r, p.output.json = some j → decodeResultMessage j = .ok r →
      (Query p prompt opts).1 = .ok r) ∧
    (p.output.json = none →
      (Query p prompt opts).1 =
        .error (.parse { Line := p.output.raw, Message := "failed to parse JSON response: invalid JSON" })) ∧
    (∀ j e, p.output.json = some j → decodeResultMessage j = .error e →
      (Query p prompt opts).1 =
        .error (.parse { Line := p.output.raw, Message := "failed to parse JSON response: " ++ e })) ∧
    (Query (okProc roundTripDoc) "hi" none).1 =
      .ok { «Type» := "result", SessionID := "s1",
            Usage := { InputTokens := 10, OutputTokens := 20 } } := by
  refine ⟨?_, ?_, ?_, ?_⟩
  · intro j r hj hd
    simp [Query, hp, hv, Execute, hs, he, hj, hd]
  · intro hj
    simp [Query, hp, hv, Execute, hs, he, hj]
  · intro j e hj hd
    simp [Query, hp, hv, Execute, hs, he, hj, hd]
  · rfl

/-- Witness for C9: the spec's round-trip document decodes to the exact
result, and a malformed output yields a `ParseError` carrying the bytes. -/
theorem c9_oneshot_decode_witness :
    (Query (okProc roundTripDoc) "hi" none).1 =
      .ok { «Type» := "result", SessionID := "s1",
            Usage := { InputTokens := 10, OutputTokens := 20 } } ∧
    (Query (okProc { raw := "not json", json := none }) "hi" none).1 =
      .error (.parse { Line := "not json", Message := "failed to parse JSON response: invalid JSON" }) := by
  constructor
  · exact (c9_oneshot_decode (okProc roundTripDoc) "hi" none (by decide) rfl rfl rfl).2.2.2
  · exact (c9_oneshot_decode (okProc { raw := "not json", json := none }) "hi" none
      (by decide) rfl rfl rfl).2.1 rfl

/-! ### C10 — the one-shot query never checks the discriminator -/

/-- A well-formed JSON object whose `type` field is a number: the claim
"every well-formed JSON object yields a successful result" fails on it,
because unmarshalling the number into the `Type` string field fails. -/
def typeNumDoc : RawLine :=
  { raw := "\x7b\"type\":42\x7d", json := some (.obj [("type", .num 42)]) }

/-- C10 counterexample: the output is well-formed JSON for an object, yet
the one-shot query returns a `ParseError` (not a successful result),
because `json.Unmarshal` fails on the number-typed `type` field. -/
theorem c10_counterexample :
    (okProc typeNumDoc).output.json = some (.obj [("type", .num 42)]) ∧
    (Query (okProc typeNumDoc) "hi" none).1 =
      .error (.parse { Line := (okProc typeNumDoc).output.raw, Message := "failed to parse JSON response: cannot unmarshal into string field type" }) := by
  constructor <;> rfl

/-- A well-formed `user`-discriminated document and an empty object, for
the amended C10. -/
def userTypeDoc : RawLine :=
  { raw := "\x7b\"type\":\"user\"\x7d", json := some (.obj [("type", .str "user")]) }

/-- The empty JSON object document. -/
def emptyObjDoc : RawLine :=
  { raw := "\x7b\x7d", json := some (.obj []) }

/-- C10 (amended): the one-shot query never inspects the decoded
document's `type` discriminator — every output that is a well-formed JSON
object and unmarshals into the result shape yields that decoded result,
even when `type` names another variant (e.g. `user`) or is absent
entirely, absent fields taking zero values; and a `ParseError` is returned
only when unmarshalling itself fails. -/
theorem c10_no_discriminator_check (p : OneShotProc) (prompt : String)
    (opts : Option Options)
    (hp : prompt ≠ "") (hv : Validate (some (opts.getD {})) = none)
    (hs : p.start = .ok ()) (he : p.exitCode = 0) :
    (∀ fields r, p.output.json = some (.obj fields) →
      decodeResultMessage (.obj fields) = .ok r →
      (Query p prompt opts).1 = .ok r) ∧
    (∀ pe, (Query p prompt opts).1 = .error (.parse pe) →
      p.output.json = none ∨
      ∃ j e, p.output.json = some j ∧ decodeResultMessage j = .error e) ∧
    (Query (okProc userTypeDoc) "hi" none).1 = .ok { «Type» := "user" } ∧
    (Query (okProc emptyObjDoc) "hi" none).1 = .ok {} := by
  refine ⟨?_, ?_, rfl, rfl⟩
  · intro fields r hj hd
    simp [Query, hp, hv, Execute, hs, he, hj, hd]
  · intro pe hpe
    cases hj : p.output.json with
    | none => exact .inl rfl
    | some j =>
      cases hd : decodeResultMessage j with
      | error e => exact .inr ⟨j, e, rfl, hd⟩
      | ok r =>
        rw [show (Query p prompt opts).1 = .ok r by
          simp [Query, hp, hv, Execute, hs, he, hj, hd]] at hpe
        exact absurd hpe (by simp)

/-- Witness for the amended C10: a `user`-discriminated object and the
empty object both decode successfully, with zero values elsewhere. -/
theorem c10_no_discriminator_check_witness :
    (Query (okProc userTypeDoc) "hi" none).1 = .ok { «Type» := "user" } ∧
    (Query (okProc emptyObjDoc) "hi" none).1 = .ok {} := by
  have h := c10_no_discriminator_check (okProc userTypeDoc) "hi" none
    (by decide) rfl rfl rfl
  exact ⟨h.2.2.1, h.2.2.2⟩

/-! ### C1/C2 — the streaming sequence -/

/-- The delivered sequence as the specification words it (for a consumer
that receives everything): blank lines skipped, each decoded message an
item in line order, a decode failure the single terminal error item (no
further lines read), and after normal exhaustion a residual read error
other than end-of-stream a final error item. -/
def specDeliveries (residual : Option ReadErr) : List RawLine → List MessageOrError
  | [] =>
    match residual with
    | some (.other msg) => [.err (.execFailure ("error reading stream: " ++ msg))]
    | _ => []
  | l :: rest =>
    if l.raw = "" then specDeliveries residual rest
    else
      match ParseMessage l with
      | .error e => [.err (.parse e)]
      | .ok m => .msg m :: specDeliveries residual rest

/-- Without cancellation the reader delivers exactly the specification's
sequence, whatever the attempt counter. -/
theorem readLoop_none_items (residual : Option ReadErr) :
    ∀ (lines : List RawLine) (k : Nat),
      (readLoop none residual lines k).1 = specDeliveries residual lines := by
  intro lines
  induction lines with
  | nil =>
    intro k
    cases residual with
    | none => rfl
    | some re => cases re <;> simp [readLoop, specDeliveries, ctxDone]
  | cons l rest ih =>
    intro k
    by_cases hraw : l.raw = ""
    · simp [readLoop, specDeliveries, hraw, ih k]
    · cases hm : ParseMessage l <;>
        simp [readLoop, specDeliveries, hraw, hm, ctxDone, ih (k + 1)]

/-- Shape of every delivered sequence: some messages followed by at most
one error item, the error (when present) being the last item. -/
theorem readLoop_shape (cancelAt : Option Nat) (residual : Option ReadErr) :
    ∀ (lines : List RawLine) (k : Nat),
      ∃ (ms : List Message) (tail : List MessageOrError),
        (readLoop cancelAt residual lines k).1 = ms.map MessageOrError.msg ++ tail ∧
        (tail = [] ∨ ∃ e, tail = [MessageOrError.err e]) := by
  intro lines
  induction lines with
  | nil =>
    intro k
    cases residual with
    | none => exact ⟨[], [], by simp [readLoop], .inl rfl⟩
    | some re =>
      cases re with
      | eof => exact ⟨[], [], by simp [readLoop], .inl rfl⟩
      | other msg =>
        by_cases hd : ctxDone cancelAt k
        · exact ⟨[], [], by simp [readLoop, hd], .inl rfl⟩
        · exact ⟨[], [.err (.execFailure ("error reading stream: " ++ msg))],
            by simp [readLoop, hd], .inr ⟨_, rfl⟩⟩
  | cons l rest ih =>
    intro k
    by_cases hraw : l.raw = ""
    · obtain ⟨ms, tail, h1, h2⟩ := ih k
      exact ⟨ms, tail, by simpa [readLoop, hraw] using h1, h2⟩
    · cases hm : ParseMessage l with
      | error e =>
        by_cases hd : ctxDone cancelAt k
        · exact ⟨[], [], by simp [readLoop, hraw, hm, hd], .inl rfl⟩
        · exact ⟨[], [.err (.parse e)], by simp [readLoop, hraw, hm, hd], .inr ⟨_, rfl⟩⟩
      | ok m =>
        by_cases hd : ctxDone cancelAt k
        · exact ⟨[], [], by simp [readLoop, hraw, hm, hd], .inl rfl⟩
        · obtain ⟨ms, tail, h1, h2⟩ := ih (k + 1)
          exact ⟨m :: ms, tail, by simp [readLoop, hraw, hm, hd, h1], h2⟩

/-- Each delivery consumes one attempt, and no attempt at or past the
cancellation point delivers, so a context cancelled from attempt `c`
onward bounds the delivered items by `c - k`. -/
theorem readLoop_cancel_bound (c : Nat) (residual : Option ReadErr) :
    ∀ (lines : List RawLine) (k : Nat),
      ((readLoop (some c) residual lines k).1).length ≤ c - k := by
  intro lines
  induction lines with
  | nil =>
    intro k
    cases residual with
    | none => simp [readLoop]
    | some re =>
      cases re with
      | eof => simp [readLoop]
      | other msg =>
        by_cases hd : ctxDone (some c) k
        · simp [readLoop, hd]
        · have hk : k < c := by
            simp [ctxDone] at hd
            omega
          simp [readLoop, hd]
          omega
  | cons l rest ih =>
    intro k
    by_cases hraw : l.raw = ""
    · simpa [readLoop, hraw] using ih k
    · cases hm : ParseMessage l with
      | error e =>
        by_cases hd : ctxDone (some c) k
        · simp [readLoop, hraw, hm, hd]
        · have hk : k < c := by
            simp [ctxDone] at hd
            omega
          simp [readLoop, hraw, hm, hd]
          omega
      | ok m =>
        by_cases hd : ctxDone (some c) k
        · simp [readLoop, hraw, hm, hd]
        · have hk : k < c := by
            simp [ctxDone] at hd
            omega
          have hrec := ih (k + 1)
          simp [readLoop, hraw, hm, hd]
          omega

/-- Truncation of the specification's sequence at the first malformed
line: well-formed lines before it become message items, the failure the
final error item, and everything after it is never read. -/
theorem specDeliveries_trunc (residual : Option ReadErr) (pre : List RawLine)
    (bad : RawLine) (post : List RawLine) (e : ParseError)
    (hpre : ∀ l ∈ pre, l.raw ≠ "" ∧ ∃ m, ParseMessage l = .ok m)
    (hbraw : bad.raw ≠ "") (hbe : ParseMessage bad = .error e) :
    specDeliveries residual (pre ++ bad :: post) =
      pre.filterMap (fun l => (ParseMessage l).toOption.map MessageOrError.msg) ++
        [.err (.parse e)] := by
  induction pre with
  | nil => simp [specDeliveries, hbraw, hbe]
  | cons l rest ih =>
    obtain ⟨hraw, m, hm⟩ := hpre l (List.mem_cons_self l rest)
    have ih2 := ih fun l' hl' => hpre l' (List.mem_cons_of_mem l hl')
    simp [specDeliveries, hraw, hm, Except.toOption, ih2]

/-- A successful `QueryStream` returns exactly the run of the background
reader. -/
theorem queryStream_run_eq (sp : StreamProc) (prompt : String)
    (opts : Option Options) (cancelAt : Option Nat) (run : ReaderRun)
    (h : (QueryStream sp prompt opts cancelAt).1 = .ok run) :
    run = runReader cancelAt sp := by
  by_cases hp : prompt = ""
  · simp [QueryStream, hp] at h
  · simp only [QueryStream, if_neg hp] at h
    cases hv : Validate (some (opts.getD {})) with
    | some e => simp [hv] at h
    | none =>
      rw [hv] at h
      cases hs : sp.start with
      | error msg => simp [hs] at h
      | ok u => simp [hs] at h; exact h.symm

/-- C1: every sequence a successful streaming query delivers is some
messages followed by at most one error item, the error (when present)
last; a fully consuming run delivers exactly the decoded messages in line
order, and a run whose lines contain a malformed line delivers the
messages decoded before it, then the single parse-error item, and nothing
after — even when well-formed lines follow the malformed one. -/
theorem c1_streaming_order (sp : StreamProc) (prompt : String)
    (opts : Option Options) (cancelAt : Option Nat) (run : ReaderRun)
    (h : (QueryStream sp prompt opts cancelAt).1 = .ok run) :
    (∃ (ms : List Message) (tail : List MessageOrError),
      run.items = ms.map MessageOrError.msg ++ tail ∧
      (tail = [] ∨ ∃ e, tail = [MessageOrError.err e])) ∧
    (cancelAt = none → run.items = specDeliveries sp.residual sp.lines) ∧
    (∀ pre bad post e, cancelAt = none → sp.lines = pre ++ bad :: post →
      (∀ l ∈ pre, l.raw ≠ "" ∧ ∃ m, ParseMessage l = .ok m) →
      bad.raw ≠ "" → ParseMessage bad = .error e →
      run.items =
        pre.filterMap (fun l => (ParseMessage l).toOption.map MessageOrError.msg) ++
          [.err (.parse e)]) := by
  have hrun := queryStream_run_eq sp prompt opts cancelAt run h
  subst hrun
  refine ⟨?_, ?_, ?_⟩
  · obtain ⟨ms, tail, h1, h2⟩ := readLoop_shape cancelAt sp.residual sp.lines 0
    exact ⟨ms, tail, by simpa [runReader] using h1, h2⟩
  · rintro rfl
    simp [runReader, readLoop_none_items]
  · rintro pre bad post e rfl hlines hpre hbraw hbe
    have hspec : (runReader none sp).items = specDeliveries sp.residual sp.lines := by
      simp [runReader, readLoop_none_items]
    rw [hspec, hlines]
    exact specDeliveries_trunc sp.residual pre bad post e hpre hbraw hbe

/-- A concrete stream for the witnesses: a well-formed `user` line, then a
malformed line, then another well-formed line. -/
def streamUserLine : RawLine :=
  { raw := "\x7b\"type\":\"user\"\x7d", json := some (.obj [("type", .str "user")]) }

/-- A malformed stream line. -/
def streamBadLine : RawLine :=
  { raw := "\x7bbad", json := none }

/-- The subprocess behaviour behind the witnesses: starts, emits the three
lines, ends cleanly. -/
def truncStreamProc : StreamProc :=
  { start := .ok (), lines := [streamUserLine, streamBadLine, streamUserLine],
    residual := none, stderr := "", waitResult := .ok 0 }

/-- Witness for C1: on `[user, malformed, user]` the fully consumed
sequence is exactly one message item then one error item — the trailing
well-formed line is never delivered. -/
theorem c1_streaming_order_witness :
    (runReader none truncStreamProc).items =
      [streamUserLine].filterMap (fun l => (ParseMessage l).toOption.map MessageOrError.msg) ++
        [.err (.parse { Line := streamBadLine.raw, Message := "invalid JSON" })] := by
  have h := (c1_streaming_order truncStreamProc "hi" none none
    (runReader none truncStreamProc) rfl).2.2 [streamUserLine] streamBadLine
    [streamUserLine] { Line := streamBadLine.raw, Message := "invalid JSON" }
    rfl rfl ?_ (by decide) rfl
  · exact h
  · intro l hl
    simp only [List.mem_singleton] at hl
    subst hl
    exact ⟨by decide, ⟨.user { «Type» := "user" }, rfl⟩⟩

/-- C2: on every exit path of a successful streaming query's background
reader the deferred cleanup runs — the output handle is closed (reaping
the subprocess), the cancellation function is invoked, and the message
channel is closed; the reader exits for one of the four reasons; and
every delivery races against cancellation, so a context cancelled from
attempt `c` onward caps the delivered items at `c` (in particular a
consumer that stops listening never blocks the reader). -/
theorem c2_reader_cleanup (sp : StreamProc) (prompt : String)
    (opts : Option Options) (cancelAt : Option Nat) (run : ReaderRun)
    (h : (QueryStream sp prompt opts cancelAt).1 = .ok run) :
    run.handleClosed = true ∧ run.cancelCalled = true ∧ run.channelClosed = true ∧
    (run.exit = .endOfStream ∨ run.exit = .parseFailure ∨
      run.exit = .readFailure ∨ run.exit = .cancelled) ∧
    (∀ c, cancelAt = some c → run.items.length ≤ c) := by
  have hrun := queryStream_run_eq sp prompt opts cancelAt run h
  subst hrun
  refine ⟨rfl, rfl, rfl, ?_, ?_⟩
  · cases hx : (readLoop cancelAt sp.residual sp.lines 0).2 <;> simp [runReader, hx]
  · rintro c rfl
    have := readLoop_cancel_bound c sp.residual sp.lines 0
    simpa [runReader] using this

/-- Witness for C2: with the context cancelled from the first attempt, the
reader delivers nothing and the cleanup still runs. -/
theorem c2_reader_cleanup_witness :
    (runReader (some 0) truncStreamProc).handleClosed = true ∧
    (runReader (some 0) truncStreamProc).cancelCalled = true ∧
    (runReader (some 0) truncStreamProc).channelClosed = true ∧
    (runReader (some 0) truncStreamProc).items.length ≤ 0 := by
  have h := c2_reader_cleanup truncStreamProc "hi" none (some 0)
    (runReader (some 0) truncStreamProc) rfl
  exact ⟨h.1, h.2.1, h.2.2.1, h.2.2.2.2 0 rfl⟩

end Claude
